import Mathlib

/-!
Shallow embedding of `jjcollinge/logrus-appinsights` (file `hook.go`).

The hook forwards logrus entries to Application Insights.  Go `interface{}`
values are modelled by `GoValue`, which records exactly the dynamic
capabilities that `formatData` and `fmt.Sprintf("%v", ·)` inspect:
whether the value implements `json.Marshaler`, `error`, `fmt.Stringer`,
and the rendering `%v` would produce when none of those methods applies.
Go maps (`entry.Data`, `trace.Properties`, the ignore set and the filter
map) are modelled by association lists; `setKey` is the map assignment
`m[k] = v` and `lookupStr` the map read.  Iteration order of a Go map is
not deterministic; the list order is one linearization, and every theorem
below is stated through key lookups, never through list order.
-/

namespace LogrusAppInsights

/-- A Go `interface{}` value as seen by `formatData` and by `fmt.Sprintf`
with the `%v` verb: `isMarshaler` is true when the dynamic type implements
`json.Marshaler`; `errorMsg` is `some m` when it implements `error` with
`Error()` returning `m`; `stringerOut` is `some s` when it implements
`fmt.Stringer` with `String()` returning `s`; `basicFmt` is what `%v`
prints when neither `Error()` nor `String()` applies. -/
structure GoValue where
  isMarshaler : Bool
  errorMsg : Option String
  stringerOut : Option String
  basicFmt : String
deriving DecidableEq, Repr

/-- A Go `string` value: strings implement none of the three interfaces and
`%v` prints their contents. -/
def strValue (s : String) : GoValue :=
  { isMarshaler := false, errorMsg := none, stringerOut := none, basicFmt := s }

/-- A Go `int` value: ints implement none of the three interfaces and `%v`
prints them in decimal. -/
def intValue (n : Int) : GoValue :=
  { isMarshaler := false, errorMsg := none, stringerOut := none, basicFmt := toString n }

/-- `fmt.Sprintf("%v", v)`: the `fmt` package consults `Error()` first,
then `String()`, then the default formatting of the underlying value
(`json.Marshaler` plays no role in `%v`). -/
def sprintv (v : GoValue) : String :=
  match v.errorMsg with
  | some m => m
  | none =>
    match v.stringerOut with
    | some s => s
    | none => v.basicFmt

/-- `formatData` from `hook.go`: a Go type switch, first matching case wins:
`json.Marshaler` values are returned unchanged, `error` values become their
`Error()` string, `fmt.Stringer` values become their `String()` string, and
everything else is returned unchanged. -/
def formatData (value : GoValue) : GoValue :=
  if value.isMarshaler then value
  else
    match value.errorMsg with
    | some m => strValue m
    | none =>
      match value.stringerOut with
      | some s => strValue s
      | none => value

/-- The logrus severity levels used by the hook (`logrus.Level`). -/
inductive Level where
  | panic
  | fatal
  | error
  | warn
  | info
  | debug
deriving DecidableEq, Repr

/-- `logrus.Level.String()`. -/
def levelString : Level → String
  | .panic => "panic"
  | .fatal => "fatal"
  | .error => "error"
  | .warn => "warning"
  | .info => "info"
  | .debug => "debug"

/-- `contracts.SeverityLevel` constants of the Application Insights SDK
(`Verbose = 0`, `Information = 1`, `Warning = 2`, `Error = 3`,
`Critical = 4`); the type is an integer whose zero value is `0`. -/
def SeverityVerbose : Int := 0

def SeverityInformation : Int := 1

def SeverityWarning : Int := 2

def SeverityError : Int := 3

def SeverityCritical : Int := 4

/-- The static `levelMap` of `hook.go` as a partial map: the five listed
logrus levels have entries, any other level is absent. -/
def levelMap : Level → Option Int
  | .panic => some SeverityCritical
  | .fatal => some SeverityCritical
  | .error => some SeverityError
  | .warn => some SeverityWarning
  | .info => some SeverityInformation
  | .debug => none

/-- Go map indexing `levelMap[entry.Level]`: a missing key yields the value
type's zero value, here `0`. -/
def lookupLevel (l : Level) : Int :=
  (levelMap l).getD 0

/-- `defaultLevels` from `hook.go`. -/
def defaultLevels : List Level :=
  [Level.panic, Level.fatal, Level.error, Level.warn, Level.info]

/-- Association-list read, the Go map read `m[k]` (as the two-result form
`v, ok := m[k]`). -/
def lookupStr {α : Type} : List (String × α) → String → Option α
  | [], _ => none
  | p :: rest, key => if key = p.1 then some p.2 else lookupStr rest key

/-- Association-list write, the Go map assignment `m[k] = v`: any previous
binding of `k` is removed and the new binding appended. -/
def setKey {α : Type} : List (String × α) → String → α → List (String × α)
  | [], k, v => [(k, v)]
  | p :: rest, k, v => if p.1 = k then setKey rest k v else p :: setKey rest k v

/-- The binding a left-to-right fold over the list leaves for `key`: the
value of the last pair with that key, if any. -/
def lastLookup {α : Type} : List (String × α) → String → Option α
  | [], _ => none
  | p :: rest, key =>
    match lastLookup rest key with
    | some w => some w
    | none => if key = p.1 then some p.2 else none

/-- `appinsights.TelemetryConfiguration` (the fields the hook touches).
`MaxBatchInterval` is a `time.Duration`, an integer count of nanoseconds. -/
structure TelemetryConfiguration where
  InstrumentationKey : String
  MaxBatchSize : Int
  MaxBatchInterval : Int
  EndpointUrl : String
deriving DecidableEq, Repr

/-- `appinsights.NewTelemetryConfiguration` of the SDK (v0.4.3): a fresh
configuration carrying the given key and the collaborator defaults. -/
def NewTelemetryConfiguration (instrumentationKey : String) : TelemetryConfiguration :=
  { InstrumentationKey := instrumentationKey
    MaxBatchSize := 1024
    MaxBatchInterval := 10 * 1000000000
    EndpointUrl := "https://dc.services.visualstudio.com/v2/track" }

/-- `AppInsightsHook` from `hook.go`.  The telemetry client is modelled by
the configuration it was built from (`NewTelemetryClientFromConfig` only
packages the configuration; transport is out of scope).  Filters are Go
functions `func(interface{}) interface{}`. -/
structure AppInsightsHook where
  client : TelemetryConfiguration
  async : Bool
  levels : List Level
  ignoreFields : List String
  filters : List (String × (GoValue → GoValue))

/-- `New` from `hook.go`: requires a non-empty instrumentation key, then
builds a configuration with `MaxBatchSize = 8192` and
`MaxBatchInterval = 2 * time.Second` and wraps it in a hook with the
default levels and empty ignore/filter maps. -/
def New (iKey : String) : Except String AppInsightsHook :=
  if iKey = "" then
    Except.error "InstrumentationKey is required and missing from configuration"
  else
    let telemetryConfig := NewTelemetryConfiguration iKey
    let telemetryConfig :=
      { telemetryConfig with MaxBatchSize := 8192, MaxBatchInterval := 2 * 1000000000 }
    Except.ok
      { client := telemetryConfig
        async := false
        levels := defaultLevels
        ignoreFields := []
        filters := [] }

/-- `NewWithAppInsightsConfig` from `hook.go`: requires a non-empty
instrumentation key in the given configuration, starts from a fresh
`NewTelemetryConfiguration`, and copies each of `MaxBatchSize`,
`MaxBatchInterval`, `EndpointUrl` from the argument only when non-zero
resp. non-empty. -/
def NewWithAppInsightsConfig (conf : TelemetryConfiguration) : Except String AppInsightsHook :=
  if conf.InstrumentationKey = "" then
    Except.error "InstrumentationKey is required and missing from configuration"
  else
    let t0 := NewTelemetryConfiguration conf.InstrumentationKey
    let t1 := if conf.MaxBatchSize ≠ 0 then { t0 with MaxBatchSize := conf.MaxBatchSize } else t0
    let t2 :=
      if conf.MaxBatchInterval ≠ 0 then { t1 with MaxBatchInterval := conf.MaxBatchInterval }
      else t1
    let t3 := if conf.EndpointUrl ≠ "" then { t2 with EndpointUrl := conf.EndpointUrl } else t2
    Except.ok
      { client := t3
        async := false
        levels := defaultLevels
        ignoreFields := []
        filters := [] }

/-- A `logrus.Entry` as the hook reads it: severity level, message, the
`Time.String()` rendering of its timestamp, and the `Data` field map. -/
structure Entry where
  level : Level
  message : String
  timeStr : String
  data : List (String × GoValue)

/-- `appinsights.TraceTelemetry` (the fields the hook touches). -/
structure TraceTelemetry where
  message : String
  severityLevel : Int
  properties : List (String × String)
deriving DecidableEq, Repr

/-- `appinsights.NewTraceTelemetry` of the SDK (v0.4.3): returns a pointer
to a fresh trace with empty properties — never nil, hence always `some`. -/
def NewTraceTelemetry (message : String) (severityLevel : Int) : Option TraceTelemetry :=
  some { message := message, severityLevel := severityLevel, properties := [] }

/-- The first step of `buildTrace`: if `entry.Data` lacks a "message" key,
insert the entry message under it (this happens before the field loop). -/
def dataWithMessage (entry : Entry) : List (String × GoValue) :=
  if (lookupStr entry.data "message").isSome then entry.data
  else setKey entry.data "message" (strValue entry.message)

/-- The candidate string one loop iteration of `buildTrace` stores for a
field `k` with raw value `v`: the registered filter applied to `v` when one
exists, `formatData v` otherwise, rendered by `fmt.Sprintf("%v", ·)`. -/
def fieldOut (hook : AppInsightsHook) (k : String) (v : GoValue) : String :=
  match lookupStr hook.filters k with
  | some fn => sprintv (fn v)
  | none => sprintv (formatData v)

/-- One iteration of the `for k, v := range entry.Data` loop of
`buildTrace`: ignored keys are skipped, all other keys are assigned their
`fieldOut` rendering in `trace.Properties`. -/
def applyField (hook : AppInsightsHook) (acc : List (String × String)) (kv : String × GoValue) :
    List (String × String) :=
  if hook.ignoreFields.contains kv.1 then acc
  else setKey acc kv.1 (fieldOut hook kv.1 kv.2)

/-- `buildTrace` from `hook.go`: insert the default message field, look the
severity up in `levelMap` (zero value on a miss), create the trace (the nil
check of the source is the `none` branch, unreachable because the SDK
constructor never returns nil), run the field loop, then set the
`source_level` and `source_timestamp` properties. -/
def buildTrace (hook : AppInsightsHook) (entry : Entry) : Except String TraceTelemetry :=
  let data := dataWithMessage entry
  let level := lookupLevel entry.level
  match NewTraceTelemetry entry.message level with
  | none => Except.error ("Could not create telemetry trace with entry " ++ entry.message)
  | some trace =>
    let props := data.foldl (applyField hook) trace.properties
    let props := setKey props "source_level" (levelString entry.level)
    let props := setKey props "source_timestamp" entry.timeStr
    Except.ok { trace with properties := props }

/-- The lower-case `fire` from `hook.go`: build the trace and hand it to
`client.Track` (which queues and returns nothing), propagating only a build
error. -/
def fire (hook : AppInsightsHook) (entry : Entry) : Except String Unit :=
  match buildTrace hook entry with
  | Except.error e => Except.error e
  | Except.ok _ => Except.ok ()

/-- `Fire` from `hook.go`.  In synchronous mode it returns the outcome of
`fire`.  In asynchronous mode the source spawns a goroutine running `fire`
under a `recover` that writes into the named return `err`; in the
sequential semantics modelled here the goroutine runs only after `Fire`
returns, so `err` is still nil at the `if err != nil` check and the caller
gets nil whatever the background run later does.  `bgRecovered` stands for
an arbitrary fault recovered during that background run; the result does
not depend on it.  (The post-return write to `err` is an unsynchronized
data race in the source and is not modelled.) -/
def Fire (hook : AppInsightsHook) (entry : Entry) (_bgRecovered : Option String) :
    Except String Unit :=
  if hook.async = false then fire hook entry
  else
    match (none : Option String) with
    | some e => Except.error e
    | none => Except.ok ()

/-! ### Concrete fixtures used by witnesses and counterexamples -/

/-- A hook with empty ignore set and empty filter map. -/
def hookPlain : AppInsightsHook :=
  { client := NewTelemetryConfiguration "k"
    async := false
    levels := defaultLevels
    ignoreFields := []
    filters := [] }

/-- A hook whose ignore set contains "message". -/
def hookIgnoreMessage : AppInsightsHook :=
  { hookPlain with ignoreFields := ["message"] }

/-- A hook whose ignore set contains "source_level". -/
def hookIgnoreSourceLevel : AppInsightsHook :=
  { hookPlain with ignoreFields := ["source_level"] }

/-- A hook with a filter registered for "source_level" that returns the
constant string "FILTERED". -/
def hookFilterSourceLevel : AppInsightsHook :=
  { hookPlain with filters := [("source_level", fun _ => strValue "FILTERED")] }

/-- A hook with a filter registered for "secret" that returns the constant
string "REDACTED". -/
def hookFilterSecret : AppInsightsHook :=
  { hookPlain with filters := [("secret", fun _ => strValue "REDACTED")] }

/-- An asynchronous hook. -/
def hookAsync : AppInsightsHook :=
  { hookPlain with async := true }

/-- The entry of the concrete scenario of the spec: fields
`name = "apple"`, `price = 105`, `color = "red"`, message "entry_message". -/
def entryScenario : Entry :=
  { level := Level.info
    message := "entry_message"
    timeStr := "2018-01-25 12:13:42 +0000 GMT"
    data := [("name", strValue "apple"), ("price", intValue 105), ("color", strValue "red")] }

/-- An entry carrying a field named "source_level". -/
def entrySourceLevel : Entry :=
  { level := Level.info
    message := "m"
    timeStr := "t0"
    data := [("source_level", strValue "x")] }

/-- An entry with no fields at all. -/
def entryEmpty : Entry :=
  { level := Level.info, message := "m", timeStr := "t0", data := [] }

/-- A debug-level entry (a severity absent from `levelMap`). -/
def entryDebug : Entry :=
  { level := Level.debug, message := "dbg", timeStr := "t1", data := [] }

/-- An entry carrying a field named "secret". -/
def entrySecret : Entry :=
  { level := Level.info
    message := "m"
    timeStr := "t0"
    data := [("secret", strValue "hunter2")] }

/-- A hook whose ignore set contains "price". -/
def hookIgnorePrice : AppInsightsHook :=
  { hookPlain with ignoreFields := ["price"] }

/-- A value implementing both `json.Marshaler` and `fmt.Stringer`
(for example `time.Time`). -/
def vMarshStringer : GoValue :=
  { isMarshaler := true, errorMsg := none, stringerOut := some "txt", basicFmt := "raw" }

/-- A value implementing both `error` and `fmt.Stringer` but not
`json.Marshaler`. -/
def vErrStringer : GoValue :=
  { isMarshaler := false, errorMsg := some "boom", stringerOut := some "txt", basicFmt := "raw" }

/-- A value implementing only `fmt.Stringer` (for example
`time.Duration`). -/
def vStringerOnly : GoValue :=
  { isMarshaler := false, errorMsg := none, stringerOut := some "txt", basicFmt := "raw" }

/-- A configuration with a key, an explicit batch size, and zero/empty
interval and endpoint. -/
def confPartial : TelemetryConfiguration :=
  { InstrumentationKey := "ikey", MaxBatchSize := 10, MaxBatchInterval := 0, EndpointUrl := "" }

/-! ### Lookup and fold lemmas shared by the claim proofs -/

theorem lookupStr_setKey_self {α : Type} (m : List (String × α)) (k : String) (v : α) :
    lookupStr (setKey m k v) k = some v := by
  induction m with
  | nil => simp [setKey, lookupStr]
  | cons p rest ih =>
    by_cases hp : p.1 = k
    · simpa [setKey, hp] using ih
    · have hk : ¬ k = p.1 := fun hh => hp hh.symm
      simp [setKey, hp, lookupStr, hk, ih]

theorem lookupStr_setKey_ne {α : Type} (m : List (String × α)) (k k' : String) (v : α)
    (h : k' ≠ k) :
    lookupStr (setKey m k v) k' = lookupStr m k' := by
  induction m with
  | nil => simp [setKey, lookupStr, h]
  | cons p rest ih =>
    by_cases hp : p.1 = k
    · have hk : ¬ k' = p.1 := by rw [hp]; exact h
      simp [setKey, hp, lookupStr, hk, h, ih]
    · by_cases hk : k' = p.1
      · simp [setKey, hp, lookupStr, hk]
      · simp [setKey, hp, lookupStr, hk, ih]

theorem lastLookup_setKey_self {α : Type} (m : List (String × α)) (k : String) (v : α) :
    lastLookup (setKey m k v) k = some v := by
  induction m with
  | nil => simp [setKey, lastLookup]
  | cons p rest ih =>
    by_cases hp : p.1 = k
    · simpa [setKey, hp] using ih
    · simp [setKey, hp, lastLookup, ih]

theorem lastLookup_isSome_of_lookupStr {α : Type} (m : List (String × α)) (k : String)
    (h : (lookupStr m k).isSome) : (lastLookup m k).isSome := by
  induction m with
  | nil => simp [lookupStr] at h
  | cons p rest ih =>
    simp only [lastLookup]
    cases hr : lastLookup rest k with
    | some w => simp
    | none =>
      simp only [lookupStr] at h
      by_cases hk : k = p.1
      · simp [hk]
      · simp [hk] at h
        exact absurd (ih h) (by simp [hr])

/-- The central loop lemma: what the `for k, v := range entry.Data` fold of
`buildTrace` leaves under a key `k`.  Ignored keys keep the accumulator
binding; otherwise the last pair of the data list with key `k` determines
the binding through `fieldOut`, and a key absent from the data keeps the
accumulator binding. -/
theorem lookupStr_foldl_applyField (hook : AppInsightsHook) (data : List (String × GoValue))
    (acc : List (String × String)) (k : String) :
    lookupStr (data.foldl (applyField hook) acc) k =
      if hook.ignoreFields.contains k then lookupStr acc k
      else
        match lastLookup data k with
        | some v => some (fieldOut hook k v)
        | none => lookupStr acc k := by
  induction data generalizing acc with
  | nil =>
    simp only [List.foldl_nil, lastLookup]
    split <;> rfl
  | cons p rest ih =>
    simp only [List.foldl_cons, lastLookup]
    rw [ih]
    by_cases hig : k ∈ hook.ignoreFields
    · have higb : hook.ignoreFields.contains k = true := by simpa using hig
      simp only [higb, if_true]
      by_cases higp : p.1 ∈ hook.ignoreFields
      · have higpb : hook.ignoreFields.contains p.1 = true := by simpa using higp
        simp only [applyField, higpb, if_true]
      · have higpb : hook.ignoreFields.contains p.1 = false := by simpa using higp
        have hk : ¬ k = p.1 := fun hkp => higp (hkp ▸ hig)
        simp only [applyField, higpb, Bool.false_eq_true, if_false]
        exact lookupStr_setKey_ne _ _ _ _ hk
    · have higb : hook.ignoreFields.contains k = false := by simpa using hig
      simp only [higb, Bool.false_eq_true, if_false]
      cases hr : lastLookup rest k with
      | some w => simp
      | none =>
        simp only
        by_cases hk : k = p.1
        · subst hk
          have higpb : hook.ignoreFields.contains p.1 = false := by simpa using hig
          simp only [applyField, higpb, Bool.false_eq_true, if_false]
          exact lookupStr_setKey_self _ _ _
        · rw [if_neg hk]
          by_cases higp : p.1 ∈ hook.ignoreFields
          · have higpb : hook.ignoreFields.contains p.1 = true := by simpa using higp
            simp only [applyField, higpb, if_true]
          · have higpb : hook.ignoreFields.contains p.1 = false := by simpa using higp
            simp only [applyField, higpb, Bool.false_eq_true, if_false]
            exact lookupStr_setKey_ne _ _ _ _ hk

/-- `buildTrace` never takes its error branch: the trace constructor always
returns a trace, so the result is `Except.ok` with the message, the
`levelMap` severity (zero value on a miss), and the properties computed by
the loop followed by the two trailing assignments. -/
theorem buildTrace_eq (hook : AppInsightsHook) (entry : Entry) :
    buildTrace hook entry =
      Except.ok
        { message := entry.message
          severityLevel := lookupLevel entry.level
          properties :=
            setKey
              (setKey ((dataWithMessage entry).foldl (applyField hook) [])
                "source_level" (levelString entry.level))
              "source_timestamp" entry.timeStr } := by
  rfl

/-! ### Claims -/

/-- Claim C1, counterexample: with "message" in the ignore set, the payload
built for an entry lacks the "message" key entirely (only `source_level`
and `source_timestamp` remain), so the output does not always contain the
"message" key when ignore rules are configured. -/
theorem C1_cex_ignored_message_absent :
    ∃ t, buildTrace hookIgnoreMessage entryEmpty = Except.ok t ∧
      hookIgnoreMessage.ignoreFields.contains "message" = true ∧
      lookupStr t.properties "message" = none :=
  ⟨_, rfl, rfl, rfl⟩

/-- Claim C1, amended: if "message" is not in the ignore set, then the
payload built by `buildTrace` always contains the "message" key; the key is
populated into the field mapping from the entry message before any field is
formatted, so when the entry lacks a "message" field and no filter is
registered for "message", the output value under "message" is exactly the
entry message. -/
theorem C1_message_key_invariant (hook : AppInsightsHook) (entry : Entry)
    (hig : hook.ignoreFields.contains "message" = false) :
    ∃ t, buildTrace hook entry = Except.ok t ∧
      (lookupStr t.properties "message").isSome = true ∧
      ((lookupStr entry.data "message" = none ∧ lookupStr hook.filters "message" = none) →
        lookupStr t.properties "message" = some entry.message) := by
  refine ⟨_, buildTrace_eq hook entry, ?_, ?_⟩
  · rw [lookupStr_setKey_ne _ _ _ _ (by decide : ("message" : String) ≠ "source_timestamp"),
      lookupStr_setKey_ne _ _ _ _ (by decide : ("message" : String) ≠ "source_level"),
      lookupStr_foldl_applyField]
    simp only [hig, Bool.false_eq_true, if_false]
    have hsome : (lastLookup (dataWithMessage entry) "message").isSome := by
      by_cases hd : (lookupStr entry.data "message").isSome
      · unfold dataWithMessage
        rw [if_pos hd]
        exact lastLookup_isSome_of_lookupStr _ _ hd
      · unfold dataWithMessage
        rw [if_neg hd, lastLookup_setKey_self]
        rfl
    cases hv : lastLookup (dataWithMessage entry) "message" with
    | none => rw [hv] at hsome; simp at hsome
    | some v => simp
  · rintro ⟨hd, hfil⟩
    rw [lookupStr_setKey_ne _ _ _ _ (by decide : ("message" : String) ≠ "source_timestamp"),
      lookupStr_setKey_ne _ _ _ _ (by decide : ("message" : String) ≠ "source_level"),
      lookupStr_foldl_applyField]
    simp only [hig, Bool.false_eq_true, if_false]
    have hv : lastLookup (dataWithMessage entry) "message" = some (strValue entry.message) := by
      unfold dataWithMessage
      rw [hd]
      simp only [Option.isSome_none, Bool.false_eq_true, if_false]
      exact lastLookup_setKey_self _ _ _
    rw [hv]
    simp [fieldOut, hfil, formatData, strValue, sprintv]

/-- Claim C1, witness: the amended invariant applied to the plain hook and
the empty entry. -/
theorem C1_message_key_invariant_witness :
    ∃ t, buildTrace hookPlain entryEmpty = Except.ok t ∧
      (lookupStr t.properties "message").isSome = true ∧
      ((lookupStr entryEmpty.data "message" = none ∧
          lookupStr hookPlain.filters "message" = none) →
        lookupStr t.properties "message" = some entryEmpty.message) :=
  C1_message_key_invariant hookPlain entryEmpty rfl

/-- Claim C2: default normalization tests the capabilities in the fixed
order `json.Marshaler`, `error`, `fmt.Stringer`, pass-through, first match
wins: a marshaler is returned unchanged even when it has a textual
representation, a non-marshaler error becomes its message string even when
it has a textual representation, a plain stringer becomes its `String()`
output, and anything else is returned unchanged. -/
theorem C2_formatData_priority (v : GoValue) :
    (v.isMarshaler = true → formatData v = v) ∧
    (v.isMarshaler = false → ∀ m, v.errorMsg = some m → formatData v = strValue m) ∧
    (v.isMarshaler = false → v.errorMsg = none → ∀ s, v.stringerOut = some s →
      formatData v = strValue s) ∧
    (v.isMarshaler = false → v.errorMsg = none → v.stringerOut = none →
      formatData v = v) := by
  refine ⟨?_, ?_, ?_, ?_⟩
  · intro h
    simp [formatData, h]
  · intro h m hm
    simp [formatData, h, hm]
  · intro h he s hs
    simp [formatData, h, he, hs]
  · intro h he hs
    simp [formatData, h, he, hs]

/-- Claim C2, witness: each of the four priority cases at a concrete value;
in particular a marshaler-and-stringer passes through unchanged and an
error-and-stringer becomes its message, never its `String()` output. -/
theorem C2_formatData_priority_witness :
    formatData vMarshStringer = vMarshStringer ∧
    formatData vErrStringer = strValue "boom" ∧
    formatData vStringerOnly = strValue "txt" ∧
    formatData (intValue 7) = intValue 7 :=
  ⟨(C2_formatData_priority vMarshStringer).1 rfl,
   (C2_formatData_priority vErrStringer).2.1 rfl "boom" rfl,
   (C2_formatData_priority vStringerOnly).2.2.1 rfl rfl "txt" rfl,
   (C2_formatData_priority (intValue 7)).2.2.2 rfl rfl rfl⟩

/-- Claim C3, counterexample: on the concrete scenario the output also
contains the key "source_level" (value "info"), which is none of the four
claimed keys, so the output is not exactly the claimed four-key set. -/
theorem C3_cex_extra_keys :
    ∃ t, buildTrace hookPlain entryScenario = Except.ok t ∧
      lookupStr t.properties "source_level" = some "info" ∧
      "source_level" ∉ ["message", "name", "price", "color"] :=
  ⟨_, rfl, rfl, by decide⟩

/-- Claim C3, amended: on the concrete scenario the output mapping is
exactly the four claimed pairs together with the two keys the loop epilogue
always writes, `source_level` (textual severity) and `source_timestamp`
(textual timestamp); the listed order is the iteration order of the model
(Go map iteration order is arbitrary) and no other keys are present. -/
theorem C3_scenario_output :
    buildTrace hookPlain entryScenario =
      Except.ok
        { message := "entry_message"
          severityLevel := SeverityInformation
          properties :=
            [("name", "apple"), ("price", "105"), ("color", "red"),
             ("message", "entry_message"), ("source_level", "info"),
             ("source_timestamp", "2018-01-25 12:13:42 +0000 GMT")] } :=
  rfl

/-- Claim C4, counterexample: construction succeeds although no
client/application name is supplied anywhere — `New` takes only the
instrumentation key and `TelemetryConfiguration` has no name field — so
construction does not fail when the client name is absent and validates
only the instrumentation key. -/
theorem C4_cex_no_name_validation :
    (∃ h, New "ikey_only" = Except.ok h) ∧
    (∃ h, NewWithAppInsightsConfig
        { InstrumentationKey := "ikey_only", MaxBatchSize := 0, MaxBatchInterval := 0,
          EndpointUrl := "" } = Except.ok h) :=
  ⟨⟨_, rfl⟩, ⟨_, rfl⟩⟩

/-- Claim C4, amended: construction validates one required input — a
non-empty instrumentation key — and fails with a configuration error
exactly when it is empty; no client/application name is taken or
validated. -/
theorem C4_construction_validates_key (iKey : String) (conf : TelemetryConfiguration) :
    ((∃ h, New iKey = Except.ok h) ↔ iKey ≠ "") ∧
    ((∃ h, NewWithAppInsightsConfig conf = Except.ok h) ↔
      conf.InstrumentationKey ≠ "") := by
  constructor
  · constructor
    · rintro ⟨h, hh⟩ hk
      rw [New, if_pos hk] at hh
      exact Except.noConfusion hh
    · intro hk
      rw [New, if_neg hk]
      exact ⟨_, rfl⟩
  · constructor
    · rintro ⟨h, hh⟩ hk
      rw [NewWithAppInsightsConfig, if_pos hk] at hh
      exact Except.noConfusion hh
    · intro hk
      rw [NewWithAppInsightsConfig, if_neg hk]
      exact ⟨_, rfl⟩

/-- Claim C4, witness: a non-empty key constructs a hook and the empty key
is rejected. -/
theorem C4_construction_validates_key_witness :
    (∃ h, New "abc" = Except.ok h) ∧ ¬ (∃ h, New "" = Except.ok h) :=
  ⟨(C4_construction_validates_key "abc" confPartial).1.mpr (by decide),
   fun hex => (C4_construction_validates_key "" confPartial).1.mp hex rfl⟩

/-- Claim C5: with asynchronous dispatch configured, `Fire` returns success
for every entry and independently of any fault recovered during the
background build-and-send run (in the sequential semantics the spawned
goroutine runs after `Fire` returns, so the named return is still nil at
the final check). -/
theorem C5_async_fire_always_ok (hook : AppInsightsHook) (entry : Entry)
    (bgRecovered : Option String) (h : hook.async = true) :
    Fire hook entry bgRecovered = Except.ok () := by
  rw [Fire, h]
  rfl

/-- Claim C5, witness: the asynchronous hook reports success on a concrete
entry even with a concrete recovered background fault. -/
theorem C5_async_fire_always_ok_witness :
    Fire hookAsync entryEmpty (some "recovered fault") = Except.ok () :=
  C5_async_fire_always_ok hookAsync entryEmpty (some "recovered fault") rfl

/-- Claim C6, counterexample: a filter registered for the field name
"source_level" is not reflected in the output — the raw field is filtered
in the loop but the loop epilogue overwrites the key with the severity
name, so the output value is "info", not the filter result "FILTERED". -/
theorem C6_cex_filter_overwritten :
    ∃ t, buildTrace hookFilterSourceLevel entrySourceLevel = Except.ok t ∧
      (lookupStr hookFilterSourceLevel.filters "source_level").isSome = true ∧
      hookFilterSourceLevel.ignoreFields.contains "source_level" = false ∧
      lookupStr t.properties "source_level" = some "info" ∧
      some "info" ≠ some (sprintv (strValue "FILTERED")) :=
  ⟨_, rfl, rfl, rfl, rfl, by decide⟩

/-- Claim C6, amended: for every field name with a registered filter, not
in the ignore set and distinct from the reserved keys `source_level` and
`source_timestamp`, the output value under that name is the textual
conversion of the filter applied to the raw value, with no default
normalization on top (the filter output is rendered directly, even when it
is a null/empty marker). -/
theorem C6_filter_output (hook : AppInsightsHook) (entry : Entry) (k : String)
    (fn : GoValue → GoValue) (v : GoValue)
    (hfil : lookupStr hook.filters k = some fn)
    (hig : hook.ignoreFields.contains k = false)
    (hk1 : k ≠ "source_level") (hk2 : k ≠ "source_timestamp")
    (hv : lastLookup (dataWithMessage entry) k = some v) :
    ∃ t, buildTrace hook entry = Except.ok t ∧
      lookupStr t.properties k = some (sprintv (fn v)) := by
  refine ⟨_, buildTrace_eq hook entry, ?_⟩
  rw [lookupStr_setKey_ne _ _ _ _ hk2, lookupStr_setKey_ne _ _ _ _ hk1,
    lookupStr_foldl_applyField]
  simp only [hig, Bool.false_eq_true, if_false, hv, fieldOut, hfil]

/-- Claim C6, witness: the "secret" filter redacts a concrete field. -/
theorem C6_filter_output_witness :
    ∃ t, buildTrace hookFilterSecret entrySecret = Except.ok t ∧
      lookupStr t.properties "secret" =
        some (sprintv ((fun _ => strValue "REDACTED") (strValue "hunter2"))) :=
  C6_filter_output hookFilterSecret entrySecret "secret" (fun _ => strValue "REDACTED")
    (strValue "hunter2") rfl rfl (by decide) (by decide) (by decide)

/-- Claim C7, counterexample: the field name "source_level" is present in
both the entry field mapping and the ignore set, yet the key is present in
the output (the loop epilogue writes it unconditionally). -/
theorem C7_cex_ignored_source_level_present :
    ∃ t, buildTrace hookIgnoreSourceLevel entrySourceLevel = Except.ok t ∧
      (lookupStr entrySourceLevel.data "source_level").isSome = true ∧
      hookIgnoreSourceLevel.ignoreFields.contains "source_level" = true ∧
      lookupStr t.properties "source_level" ≠ none :=
  ⟨_, rfl, rfl, rfl, by decide⟩

/-- Claim C7, amended: every field name present in the entry field mapping
and in the ignore set and distinct from the reserved keys `source_level`
and `source_timestamp` is absent from the output mapping (it contributes
nothing, and its filter, if any, is not applied). -/
theorem C7_ignored_fields_absent (hook : AppInsightsHook) (entry : Entry) (k : String)
    (_hd : (lookupStr entry.data k).isSome = true)
    (hig : hook.ignoreFields.contains k = true)
    (hk1 : k ≠ "source_level") (hk2 : k ≠ "source_timestamp") :
    ∃ t, buildTrace hook entry = Except.ok t ∧ lookupStr t.properties k = none := by
  refine ⟨_, buildTrace_eq hook entry, ?_⟩
  rw [lookupStr_setKey_ne _ _ _ _ hk2, lookupStr_setKey_ne _ _ _ _ hk1,
    lookupStr_foldl_applyField]
  simp only [hig, if_true]
  rfl

/-- Claim C7, witness: the ignored "price" field of the concrete scenario
is absent from the output. -/
theorem C7_ignored_fields_absent_witness :
    ∃ t, buildTrace hookIgnorePrice entryScenario = Except.ok t ∧
      lookupStr t.properties "price" = none :=
  C7_ignored_fields_absent hookIgnorePrice entryScenario "price" rfl rfl
    (by decide) (by decide)

/-- Claim C8: a severity absent from the static `levelMap` (here Debug)
yields the zero value of the remote severity type, and the build still
succeeds — `buildTrace` never returns an error for an unmapped severity. -/
theorem C8_unmapped_severity_zero (hook : AppInsightsHook) (entry : Entry)
    (h : entry.level = Level.debug) :
    levelMap entry.level = none ∧ lookupLevel entry.level = 0 ∧
    ∃ t, buildTrace hook entry = Except.ok t ∧ t.severityLevel = 0 := by
  refine ⟨by rw [h]; rfl, by rw [h]; rfl, _, buildTrace_eq hook entry, ?_⟩
  rw [h]
  rfl

/-- Claim C8, witness: the debug entry builds successfully with severity
zero. -/
theorem C8_unmapped_severity_zero_witness :
    levelMap entryDebug.level = none ∧ lookupLevel entryDebug.level = 0 ∧
    ∃ t, buildTrace hookPlain entryDebug = Except.ok t ∧ t.severityLevel = 0 :=
  C8_unmapped_severity_zero hookPlain entryDebug rfl

/-- Claim C9: given a configuration with a non-empty key, each optional
override (batch size, batch interval, endpoint URL) is copied into the
fresh telemetry configuration only when non-zero resp. non-empty, the other
fields keeping the collaborator defaults of `NewTelemetryConfiguration`. -/
theorem C9_optional_overrides (conf : TelemetryConfiguration)
    (h : conf.InstrumentationKey ≠ "") :
    ∃ hk, NewWithAppInsightsConfig conf = Except.ok hk ∧
      hk.client.InstrumentationKey = conf.InstrumentationKey ∧
      hk.client.MaxBatchSize =
        (if conf.MaxBatchSize ≠ 0 then conf.MaxBatchSize
         else (NewTelemetryConfiguration conf.InstrumentationKey).MaxBatchSize) ∧
      hk.client.MaxBatchInterval =
        (if conf.MaxBatchInterval ≠ 0 then conf.MaxBatchInterval
         else (NewTelemetryConfiguration conf.InstrumentationKey).MaxBatchInterval) ∧
      hk.client.EndpointUrl =
        (if conf.EndpointUrl ≠ "" then conf.EndpointUrl
         else (NewTelemetryConfiguration conf.InstrumentationKey).EndpointUrl) := by
  rw [NewWithAppInsightsConfig, if_neg h]
  refine ⟨_, rfl, ?_, ?_, ?_, ?_⟩ <;> split_ifs <;> rfl

/-- Claim C9, witness: a concrete configuration with an explicit batch size
and zero interval and empty endpoint keeps the defaults for the latter
two. -/
theorem C9_optional_overrides_witness :
    ∃ hk, NewWithAppInsightsConfig confPartial = Except.ok hk ∧
      hk.client.InstrumentationKey = confPartial.InstrumentationKey ∧
      hk.client.MaxBatchSize =
        (if confPartial.MaxBatchSize ≠ 0 then confPartial.MaxBatchSize
         else (NewTelemetryConfiguration confPartial.InstrumentationKey).MaxBatchSize) ∧
      hk.client.MaxBatchInterval =
        (if confPartial.MaxBatchInterval ≠ 0 then confPartial.MaxBatchInterval
         else (NewTelemetryConfiguration confPartial.InstrumentationKey).MaxBatchInterval) ∧
      hk.client.EndpointUrl =
        (if confPartial.EndpointUrl ≠ "" then confPartial.EndpointUrl
         else (NewTelemetryConfiguration confPartial.InstrumentationKey).EndpointUrl) :=
  C9_optional_overrides confPartial (by decide)

/-- Claim C10: for every entry and every hook the built payload contains
`source_level`, equal to the textual severity name, and `source_timestamp`,
equal to the textual timestamp; because the hook and the entry are
arbitrary, the keys are present even when they are in the ignore set, their
values are never the result of a registered filter, and they overwrite any
same-named entry field. -/
theorem C10_source_fields_always_set (hook : AppInsightsHook) (entry : Entry) :
    ∃ t, buildTrace hook entry = Except.ok t ∧
      lookupStr t.properties "source_level" = some (levelString entry.level) ∧
      lookupStr t.properties "source_timestamp" = some entry.timeStr := by
  refine ⟨_, buildTrace_eq hook entry, ?_, ?_⟩
  · rw [lookupStr_setKey_ne _ _ _ _
      (by decide : ("source_level" : String) ≠ "source_timestamp"),
      lookupStr_setKey_self]
  · rw [lookupStr_setKey_self]

end LogrusAppInsights
